import Mathlib

/-!
# Verification of pistis-concurrent pollable primitives

Shallow embedding of the pollable concurrency library (bounded queue with
watermark events, pollable condition variable, epoll-set facade, read/write
toggle helpers) together with proofs about the embedded operations.

Conventions used throughout:

* The C++ `std::deque` used as the queue of items is embedded as a `List`
  with the deque's front at the head of the list (`pop_front` = tail,
  `push_back` = append one element).
* The `Condition` notification deque is only ever pushed at the back and
  popped from the back in the source, so it is embedded as a `List` with the
  deque's *back* at the head (`push_back` = cons, `pop_back` = uncons).
* Timeouts in milliseconds are embedded as `Int` (`int64_t`).
* File descriptors are embedded as `Int`.
* Blocking operations are embedded by their completed effect; an operation
  that would block (e.g. `put` on a full queue, `get` on an empty queue)
  leaves the state unchanged and fires no notification, which is exactly the
  state change a caller observes for a timed-out attempt.
-/

namespace Pistis

/-- `ReadWriteToggle::State` from ReadWriteToggle.hpp. -/
inductive ToggleState
  | READ_ONLY
  | WRITE_ONLY
  | READ_WRITE
deriving DecidableEq, Repr

/-- `QueueEventType` from Queue.hpp. -/
inductive QueueEventType
  | EMPTY
  | NOT_EMPTY
  | FULL
  | NOT_FULL
  | HIGH_WATER_MARK
  | LOW_WATER_MARK
deriving DecidableEq, Repr

/-- The mutable state of a `Queue<Item>` that the notification logic touches:
the bounds `maxSize_`, `lowWaterMark_`, `highWaterMark_`, the item deque `q_`,
the `queueState_` toggle and the `highWaterCrossed_` hysteresis latch. -/
structure QueueState (α : Type) where
  maxSize : Nat
  lowWaterMark : Nat
  highWaterMark : Nat
  items : List α
  toggle : ToggleState
  highWaterCrossed : Bool
deriving DecidableEq, Repr

namespace Queue

/-- `Queue::issueNotifications_(oldSize, newSize)`: the six rules, applied in
source order (not-empty, empty, not-full, full, high water, low water), each
notifying its condition variable (recorded here as an emitted event) and
updating `queueState_` / `highWaterCrossed_`.  Rule 5 reads the latch left by
rules 1-4 (which never touch it) and rule 6 reads the latch left by rule 5,
exactly as the sequential C++ statements do. -/
def issueNotifications_ {α : Type} (st : QueueState α) (oldSize newSize : Nat) :
    QueueState α × List QueueEventType :=
  let s1 := if oldSize = 0 ∧ newSize ≠ 0 then
              { st with toggle := ToggleState.READ_WRITE } else st
  let e1 : List QueueEventType :=
    if oldSize = 0 ∧ newSize ≠ 0 then [QueueEventType.NOT_EMPTY] else []
  let s2 := if oldSize ≠ 0 ∧ newSize = 0 then
              { s1 with toggle := ToggleState.WRITE_ONLY } else s1
  let e2 : List QueueEventType :=
    if oldSize ≠ 0 ∧ newSize = 0 then [QueueEventType.EMPTY] else []
  let s3 := if st.maxSize ≤ oldSize ∧ newSize < st.maxSize then
              { s2 with toggle := ToggleState.READ_WRITE } else s2
  let e3 : List QueueEventType :=
    if st.maxSize ≤ oldSize ∧ newSize < st.maxSize then
      [QueueEventType.NOT_FULL] else []
  let s4 := if oldSize < st.maxSize ∧ st.maxSize ≤ newSize then
              { s3 with toggle := ToggleState.READ_ONLY } else s3
  let e4 : List QueueEventType :=
    if oldSize < st.maxSize ∧ st.maxSize ≤ newSize then
      [QueueEventType.FULL] else []
  let s5 := if oldSize ≤ st.highWaterMark ∧ st.highWaterMark < newSize ∧
               s4.highWaterCrossed = false then
              { s4 with highWaterCrossed := true } else s4
  let e5 : List QueueEventType :=
    if oldSize ≤ st.highWaterMark ∧ st.highWaterMark < newSize ∧
       s4.highWaterCrossed = false then [QueueEventType.HIGH_WATER_MARK] else []
  let s6 := if st.lowWaterMark < oldSize ∧ newSize ≤ st.lowWaterMark ∧
               s5.highWaterCrossed = true then
              { s5 with highWaterCrossed := false } else s5
  let e6 : List QueueEventType :=
    if st.lowWaterMark < oldSize ∧ newSize ≤ st.lowWaterMark ∧
       s5.highWaterCrossed = true then [QueueEventType.LOW_WATER_MARK] else []
  (s6, e1 ++ e2 ++ e3 ++ e4 ++ e5 ++ e6)

/-- `Queue::Queue(maxSize, lowWaterMark, highWaterMark, allocator)`: throws
`IllegalValueError` (here `none`) when `highWaterMark > maxSize` or
`lowWaterMark > highWaterMark`; otherwise the queue starts empty with the
latch clear and `queueState_` set to `WRITE_ONLY`. -/
def mkQueue {α : Type} (maxSize lowWaterMark highWaterMark : Nat) :
    Option (QueueState α) :=
  if highWaterMark > maxSize then none
  else if lowWaterMark > highWaterMark then none
  else some { maxSize := maxSize, lowWaterMark := lowWaterMark,
              highWaterMark := highWaterMark, items := [],
              toggle := ToggleState.WRITE_ONLY, highWaterCrossed := false }

/-- The state change of a `put` whose wait loop has completed (source
precondition `q_.size() < maxSize_`): append the item, then
`issueNotifications_(q_.size() - 1, q_.size())`. -/
def putCompleted {α : Type} (st : QueueState α) (item : α) :
    QueueState α × List QueueEventType :=
  let q2 := st.items ++ [item]
  issueNotifications_ { st with items := q2 } (q2.length - 1) q2.length

/-- `Queue::put(item, timeout)`: completes when `q_.size() < maxSize_`.
A put that cannot complete (full queue, caller would block or time out
returning `false`) changes nothing and fires nothing. -/
def put {α : Type} (st : QueueState α) (item : α) :
    QueueState α × List QueueEventType :=
  if st.items.length < st.maxSize then putCompleted st item else (st, [])

/-- `Queue::get()` / `Queue::get(result, timeout)`: when non-empty, pop the
front and `issueNotifications_(q_.size() + 1, q_.size())`.  A get on an empty
queue (caller would block or time out returning `false`) changes nothing. -/
def get {α : Type} (st : QueueState α) : QueueState α × List QueueEventType :=
  match st.items with
  | [] => (st, [])
  | _ :: rest =>
      issueNotifications_ { st with items := rest } (rest.length + 1) rest.length

/-- `Queue::getAll()`: moves the whole deque out and
`issueNotifications_(result.size(), 0)`. -/
def getAll {α : Type} (st : QueueState α) : QueueState α × List QueueEventType :=
  issueNotifications_ { st with items := [] } st.items.length 0

/-- `Queue::clear()`: records `oldSize`, clears the deque and
`issueNotifications_(oldSize, 0)`. -/
def clear {α : Type} (st : QueueState α) : QueueState α × List QueueEventType :=
  issueNotifications_ { st with items := [] } st.items.length 0

end Queue

/-- A mutating queue operation (the operations that call
`issueNotifications_`). -/
inductive QueueOp (α : Type)
  | put (x : α)
  | get
  | getAll
  | clear
deriving DecidableEq, Repr

namespace Queue

/-- Apply one mutating operation. -/
def applyOp {α : Type} (st : QueueState α) : QueueOp α →
    QueueState α × List QueueEventType
  | QueueOp.put x => put st x
  | QueueOp.get => get st
  | QueueOp.getAll => getAll st
  | QueueOp.clear => clear st

/-- Run a sequence of mutating operations, concatenating the notifications
they fire in order. -/
def runOps {α : Type} (st : QueueState α) :
    List (QueueOp α) → QueueState α × List QueueEventType
  | [] => (st, [])
  | op :: rest =>
      let r := applyOp st op
      let r2 := runOps r.1 rest
      (r2.1, r.2 ++ r2.2)

/-- The subsequence of watermark notifications in an event list. -/
def wmEvents (events : List QueueEventType) : List QueueEventType :=
  events.filter (fun e =>
    e == QueueEventType.HIGH_WATER_MARK || e == QueueEventType.LOW_WATER_MARK)

/-- `Queue::Queue(Queue&& other)`: the member initializers copy the bounds,
move the deque (a moved-from `std::deque` is left empty) and copy the latch;
the body clears the source's latch and sets the source's toggle to
`WRITE_ONLY`.  The destination's `queueState_` member is its freshly
default-constructed `ReadWriteToggle`, whose initial state is `READ_WRITE`;
the move constructor body never calls `setState` on it.  Returns
(destination, moved-from source). -/
def moveConstruct {α : Type} (other : QueueState α) :
    QueueState α × QueueState α :=
  ({ maxSize := other.maxSize, lowWaterMark := other.lowWaterMark,
     highWaterMark := other.highWaterMark, items := other.items,
     toggle := ToggleState.READ_WRITE,
     highWaterCrossed := other.highWaterCrossed },
   { other with items := [], toggle := ToggleState.WRITE_ONLY,
                highWaterCrossed := false })

/-- `Queue::operator=(Queue&& other)` (for `this != &other`): copies bounds
and latch, clears the source latch, moves the deque, sets the source toggle
to `WRITE_ONLY`, then sets the destination toggle from the transferred size
(the comparison uses the just-copied `maxSize_`).  Returns
(destination, moved-from source); `self` is the assigned-to queue, whose
previous state is entirely overwritten. -/
def moveAssign {α : Type} (self other : QueueState α) :
    QueueState α × QueueState α :=
  let movedItems := other.items
  let newToggle :=
    if movedItems.length = 0 then ToggleState.WRITE_ONLY
    else if movedItems.length < other.maxSize then ToggleState.READ_WRITE
    else ToggleState.READ_ONLY
  ({ maxSize := other.maxSize, lowWaterMark := other.lowWaterMark,
     highWaterMark := other.highWaterMark, items := movedItems,
     toggle := newToggle, highWaterCrossed := other.highWaterCrossed },
   { other with items := [], toggle := ToggleState.WRITE_ONLY,
                highWaterCrossed := false })

/-- In `Queue::waitUntilLowWaterMark_` the code computes
`timeLeft = max((int64_t)0, toMs(now - start))` — `now - start` is the time
*elapsed* in the first sub-wait, not the remaining budget — and passes it as
the timeout of the second `waitForInvariant_` call.  `elapsed` stands for
`toMs(now - start)`. -/
def waitUntilLowWaterMark_secondTimeout (timeout elapsed : Int) : Int :=
  max 0 elapsed

/-- In `Queue::waitUntilHighWaterMark_` the code computes the same `timeLeft`
but then passes the original `timeout` to the second `waitForInvariant_`
call; the computed `timeLeft` is unused. -/
def waitUntilHighWaterMark_secondTimeout (timeout elapsed : Int) : Int :=
  timeout

end Queue

/-- The observable fields of a `Queue::Guard` / `Condition::Guard`: whether
the owner pointer is non-null (`active()`) and the stored fd (`fd()`). -/
structure GuardState where
  active : Bool
  fd : Int
deriving DecidableEq, Repr

namespace Queue.Guard

/-- `Queue::Guard::Guard(Guard&& other)`: the initializers copy `q_`, `t_`
and `fd_` from `other`; the body sets `other.q_ = nullptr` and then
`fd_ = -1` — note: the *destination's* own `fd_`, not `other.fd_`.  Returns
(destination, moved-from). -/
def moveConstruct (other : GuardState) : GuardState × GuardState :=
  ({ active := other.active, fd := -1 },
   { active := false, fd := other.fd })

end Queue.Guard

namespace Condition.Guard

/-- `Condition::Guard::Guard(Guard&& other)`: copies `c_` and `fd_`, then
sets `other.c_ = nullptr` and `other.fd_ = -1`.  Returns
(destination, moved-from). -/
def moveConstruct (other : GuardState) : GuardState × GuardState :=
  ({ active := other.active, fd := other.fd },
   { active := false, fd := -1 })

end Condition.Guard

/-- The state of a pollable `Condition`.  Each waiter/observer handle is a
fresh `Semaphore` identified by its eventfd; `counts fd` is that semaphore's
current value (the eventfd counter, 0 = not readable/not signaled).  Fds are
allocated in increasing order by `nextFd`.  `queue` is `queue_` with the
deque's back at the head of the list (the source only pushes at the back and
pops from the back); `observers` is the key set of the `observers_` map. -/
structure CondState where
  nextFd : Int
  counts : Int → Nat
  queue : List Int
  observers : List Int

/-- A fresh `Condition`. -/
def condInit : CondState :=
  { nextFd := 0, counts := fun _ => 0, queue := [], observers := [] }

namespace Condition

/-- `Condition::observe()`: creates a fresh semaphore (value 0), pushes it on
the back of `queue_` and records it in `observers_`, returning its fd. -/
def observe (st : CondState) : Int × CondState :=
  (st.nextFd,
   { nextFd := st.nextFd + 1, counts := st.counts,
     queue := st.nextFd :: st.queue,
     observers := st.nextFd :: st.observers })

/-- The state change of `Condition::wait(timeout)` when the wait times out
(returns `false`): the freshly created semaphore was pushed on the back of
`queue_` and the waiter abandons it there — nothing removes it. -/
def waitTimedOut (st : CondState) : CondState :=
  { nextFd := st.nextFd + 1, counts := st.counts,
    queue := st.nextFd :: st.queue, observers := st.observers }

/-- `Condition::notifyOne()`: if `queue_` is non-empty, `up()` the semaphore
at the back and pop it. -/
def notifyOne (st : CondState) : CondState :=
  match st.queue with
  | [] => st
  | b :: rest =>
      { st with queue := rest,
                counts := fun x =>
                  if x = b then st.counts b + 1 else st.counts x }

/-- One iteration step of `Condition::notifyAll()`'s loop: `up()` the back
and pop, repeated until empty (the head of our list is the deque's back). -/
def notifyAllCounts : List Int → (Int → Nat) → Int → Nat
  | [], counts => counts
  | b :: rest, counts =>
      notifyAllCounts rest (fun x => if x = b then counts b + 1 else counts x)

/-- `Condition::notifyAll()`: pops and signals every queued handle. -/
def notifyAll (st : CondState) : CondState :=
  { st with queue := [], counts := notifyAllCounts st.queue st.counts }

/-- Outcome of `Condition::ack(fd)`. -/
inductive AckOutcome
  | noSuchItem   -- `lookup_` threw NoSuchItem (fd not in `observers_`)
  | blocked      -- `s->down()` would suspend (semaphore value 0)
  | ok           -- signal consumed, handle re-queued
deriving DecidableEq, Repr

/-- `Condition::ack(fd)`: `lookup_(fd)` throws `NoSuchItem` before any state
change when `fd` is not an `observers_` key; otherwise `s->down()` consumes
one unit of the semaphore (blocking while its value is 0 — embedded as the
`blocked` outcome with no completed state change) and the handle is pushed
back onto `queue_`. -/
def ack (st : CondState) (fd : Int) : AckOutcome × CondState :=
  if fd ∈ st.observers then
    if st.counts fd = 0 then (AckOutcome.blocked, st)
    else (AckOutcome.ok,
          { st with counts := fun x =>
                      if x = fd then st.counts fd - 1 else st.counts x,
                    queue := fd :: st.queue })
  else (AckOutcome.noSuchItem, st)

/-- `Condition::stopObserving(fd)`: `lookup_(fd)` throws `NoSuchItem` for
unknown fds; otherwise the entry is erased from `observers_` (the handle is
*not* removed from `queue_`). -/
def stopObserving (st : CondState) (fd : Int) : Bool × CondState :=
  if fd ∈ st.observers then
    (true, { st with observers := st.observers.erase fd })
  else (false, st)

end Condition

/-- A completed `Condition` operation.  `ack` appears as the completed
operation (an ack on an unsignaled handle blocks and has no completed state
change until the handle is signaled). -/
inductive CondOp
  | observe
  | waitTimedOut
  | notifyOne
  | notifyAll
  | ack (fd : Int)
  | stopObserving (fd : Int)
deriving Repr

/-- Apply one completed `Condition` operation. -/
def applyCondOp (st : CondState) : CondOp → CondState
  | CondOp.observe => (Condition.observe st).2
  | CondOp.waitTimedOut => Condition.waitTimedOut st
  | CondOp.notifyOne => Condition.notifyOne st
  | CondOp.notifyAll => Condition.notifyAll st
  | CondOp.ack fd => (Condition.ack st fd).2
  | CondOp.stopObserving fd => (Condition.stopObserving st fd).2

/-- Run a sequence of completed `Condition` operations from a fresh
`Condition`. -/
def runCondOps (ops : List CondOp) : CondState :=
  ops.foldl applyCondOp condInit

/-- The state of an `EpollSet` as far as registration bookkeeping goes:
the set of fds registered in the kernel epoll object, and the `numFds_`
counter. -/
structure EpollSetState where
  registered : List Int
  numFds : Nat
deriving DecidableEq, Repr

/-- Outcome of an `EpollSet` control operation. -/
inductive EpollCtlResult
  | itemExists              -- ItemExistsError thrown
  | noSuchItem              -- NoSuchItem thrown
  | ok (st : EpollSetState) -- completed, with the resulting state
deriving DecidableEq, Repr

namespace EpollSet

/-- A fresh `EpollSet` (`EpollSet(onExec)`): empty kernel set, `numFds_(0)`. -/
def create : EpollSetState := { registered := [], numFds := 0 }

/-- `EpollSet::numTargets()` from EpollSet.hpp:
`uint32_t numTargets() const { return numFds_; }` — it reports the
registration counter `numFds_` maintained by the EpollSet.cpp code. -/
def numTargets (st : EpollSetState) : Nat := st.numFds

/-- `EpollSet::add(fd, ...)`: `epoll_ctl(ADD)` fails with `EEXIST` for an
already-registered fd (→ `ItemExistsError`, state unchanged); on success the
fd is registered and `++numFds_`. -/
def add (st : EpollSetState) (fd : Int) : EpollCtlResult :=
  if fd ∈ st.registered then EpollCtlResult.itemExists
  else EpollCtlResult.ok
    { registered := fd :: st.registered, numFds := st.numFds + 1 }

/-- `EpollSet::modify(fd, ...)`: `epoll_ctl(MOD)` fails with `ENOENT` for an
unregistered fd (→ `NoSuchItem`); on success the registration set and
`numFds_` are unchanged. -/
def modify (st : EpollSetState) (fd : Int) : EpollCtlResult :=
  if fd ∈ st.registered then EpollCtlResult.ok st
  else EpollCtlResult.noSuchItem

/-- `EpollSet::remove(fd)`: on `epoll_ctl(DEL)` success, `--numFds_`; on
`ENOENT` (fd not registered) it throws `NoSuchItem` without decrementing. -/
def remove (st : EpollSetState) (fd : Int) : EpollCtlResult :=
  if fd ∈ st.registered then
    EpollCtlResult.ok
      { registered := st.registered.erase fd, numFds := st.numFds - 1 }
  else EpollCtlResult.noSuchItem

/-- `EpollSet::clear()`: closes the epoll fd and recreates it with
`createEpollFd`, discarding every kernel registration; `numFds_` is not
touched by the function. -/
def clear (st : EpollSetState) : EpollSetState :=
  { registered := [], numFds := st.numFds }

end EpollSet

namespace ReadWriteToggle

/-- Result of the anonymous-namespace `createEventFd` helper in
ReadWriteToggle.cpp. -/
inductive CreateEventFdResult
  | throwsSystemError    -- `fd < 0`: SystemError thrown
  | fallsOffEnd          -- control reaches the end of the non-void function
                         -- with no `return` statement: no value is produced
  | returns (fd : Int)
deriving DecidableEq, Repr

/-- The `createEventFd` helper of ReadWriteToggle.cpp, as written:
`eventfdResult` is the value returned by `::eventfd`.  When it is negative a
`SystemError` is thrown; otherwise control falls off the end of the function
— the success path contains no `return fd;`. -/
def createEventFd (eventfdResult : Int) : CreateEventFdResult :=
  if eventfdResult < 0 then CreateEventFdResult.throwsSystemError
  else CreateEventFdResult.fallsOffEnd

end ReadWriteToggle

/-! ## Lemmas about the notification algorithm -/

namespace Queue

/-- `issueNotifications_` never touches the bounds or the item deque. -/
theorem issueNotifications_fields {α : Type} (st : QueueState α)
    (oldSize newSize : Nat) :
    (issueNotifications_ st oldSize newSize).1.maxSize = st.maxSize ∧
    (issueNotifications_ st oldSize newSize).1.lowWaterMark = st.lowWaterMark ∧
    (issueNotifications_ st oldSize newSize).1.highWaterMark =
      st.highWaterMark ∧
    (issueNotifications_ st oldSize newSize).1.items = st.items := by
  unfold issueNotifications_
  dsimp only
  split_ifs <;> simp

set_option maxHeartbeats 2000000 in
/-- What one `issueNotifications_` call does on the watermark dimension:
its watermark notifications and the resulting latch, as functions of the
transition and the incoming latch.  The low-water rule reads the latch
*after* the high-water rule, but when `lowWaterMark ≤ highWaterMark` the two
rules' guards are mutually exclusive, so the incoming latch decides. -/
theorem wm_behavior {α : Type} (st : QueueState α) (oldSize newSize : Nat)
    (h : st.lowWaterMark ≤ st.highWaterMark) :
    (wmEvents (issueNotifications_ st oldSize newSize).2 =
       if oldSize ≤ st.highWaterMark ∧ st.highWaterMark < newSize ∧
          st.highWaterCrossed = false then [QueueEventType.HIGH_WATER_MARK]
       else if st.lowWaterMark < oldSize ∧ newSize ≤ st.lowWaterMark ∧
          st.highWaterCrossed = true then [QueueEventType.LOW_WATER_MARK]
       else []) ∧
    ((issueNotifications_ st oldSize newSize).1.highWaterCrossed =
       if oldSize ≤ st.highWaterMark ∧ st.highWaterMark < newSize ∧
          st.highWaterCrossed = false then true
       else if st.lowWaterMark < oldSize ∧ newSize ≤ st.lowWaterMark ∧
          st.highWaterCrossed = true then false
       else st.highWaterCrossed) := by
  unfold issueNotifications_ wmEvents
  dsimp only
  split_ifs <;> simp_all <;> omega

/-- `wmEvents` distributes over concatenation. -/
theorem wmEvents_append (l1 l2 : List QueueEventType) :
    wmEvents (l1 ++ l2) = wmEvents l1 ++ wmEvents l2 := by
  simp [wmEvents]

/-- A high-water notification is issued exactly on a size transition from at
or below the high water mark to above it with the latch clear. -/
theorem high_mem_iff {α : Type} (st : QueueState α) (oldSize newSize : Nat)
    (h : st.lowWaterMark ≤ st.highWaterMark) :
    QueueEventType.HIGH_WATER_MARK ∈
        (issueNotifications_ st oldSize newSize).2 ↔
      oldSize ≤ st.highWaterMark ∧ st.highWaterMark < newSize ∧
      st.highWaterCrossed = false := by
  have hw := (wm_behavior st oldSize newSize h).1
  have hmem : QueueEventType.HIGH_WATER_MARK ∈
      (issueNotifications_ st oldSize newSize).2 ↔
      QueueEventType.HIGH_WATER_MARK ∈
        wmEvents (issueNotifications_ st oldSize newSize).2 := by
    simp [wmEvents, List.mem_filter]
  rw [hmem, hw]
  split_ifs with h1 h2 <;> simp_all

/-- A low-water notification is issued exactly on a size transition from
above the low water mark to at or below it with the latch set. -/
theorem low_mem_iff {α : Type} (st : QueueState α) (oldSize newSize : Nat)
    (h : st.lowWaterMark ≤ st.highWaterMark) :
    QueueEventType.LOW_WATER_MARK ∈
        (issueNotifications_ st oldSize newSize).2 ↔
      st.lowWaterMark < oldSize ∧ newSize ≤ st.lowWaterMark ∧
      st.highWaterCrossed = true := by
  have hw := (wm_behavior st oldSize newSize h).1
  have hmem : QueueEventType.LOW_WATER_MARK ∈
      (issueNotifications_ st oldSize newSize).2 ↔
      QueueEventType.LOW_WATER_MARK ∈
        wmEvents (issueNotifications_ st oldSize newSize).2 := by
    simp [wmEvents, List.mem_filter]
  rw [hmem, hw]
  split_ifs with h1 h2 <;> simp_all

/-- One `issueNotifications_` call, seen on the watermark dimension, does one
of three things: nothing (latch kept), a high-water notification (latch
false → true), or a low-water notification (latch true → false). -/
theorem issue_wm_cases {α : Type} (st : QueueState α) (oldSize newSize : Nat)
    (h : st.lowWaterMark ≤ st.highWaterMark) :
    (wmEvents (issueNotifications_ st oldSize newSize).2 = [] ∧
       (issueNotifications_ st oldSize newSize).1.highWaterCrossed =
         st.highWaterCrossed) ∨
    (st.highWaterCrossed = false ∧
       wmEvents (issueNotifications_ st oldSize newSize).2 =
         [QueueEventType.HIGH_WATER_MARK] ∧
       (issueNotifications_ st oldSize newSize).1.highWaterCrossed = true) ∨
    (st.highWaterCrossed = true ∧
       wmEvents (issueNotifications_ st oldSize newSize).2 =
         [QueueEventType.LOW_WATER_MARK] ∧
       (issueNotifications_ st oldSize newSize).1.highWaterCrossed = false) := by
  obtain ⟨h1, h2⟩ := wm_behavior st oldSize newSize h
  split_ifs at h1 h2 with hA hB
  · exact Or.inr (Or.inl ⟨hA.2.2, h1, h2⟩)
  · exact Or.inr (Or.inr ⟨hB.2.2, h1, h2⟩)
  · exact Or.inl ⟨h1, h2⟩

/-- `applyOp` preserves the three size bounds. -/
theorem applyOp_bounds {α : Type} (st : QueueState α) (op : QueueOp α) :
    (applyOp st op).1.maxSize = st.maxSize ∧
    (applyOp st op).1.lowWaterMark = st.lowWaterMark ∧
    (applyOp st op).1.highWaterMark = st.highWaterMark := by
  cases op with
  | put x =>
      unfold applyOp put putCompleted
      split_ifs
      · exact ⟨(issueNotifications_fields _ _ _).1,
               (issueNotifications_fields _ _ _).2.1,
               (issueNotifications_fields _ _ _).2.2.1⟩
      · exact ⟨rfl, rfl, rfl⟩
  | get =>
      unfold applyOp get
      rcases hi : st.items with _ | ⟨a, rest⟩
      · exact ⟨rfl, rfl, rfl⟩
      · exact ⟨(issueNotifications_fields _ _ _).1,
               (issueNotifications_fields _ _ _).2.1,
               (issueNotifications_fields _ _ _).2.2.1⟩
  | getAll =>
      exact ⟨(issueNotifications_fields _ _ _).1,
             (issueNotifications_fields _ _ _).2.1,
             (issueNotifications_fields _ _ _).2.2.1⟩
  | clear =>
      exact ⟨(issueNotifications_fields _ _ _).1,
             (issueNotifications_fields _ _ _).2.1,
             (issueNotifications_fields _ _ _).2.2.1⟩

/-- `applyOp` keeps the size within the bound. -/
theorem applyOp_size {α : Type} (st : QueueState α) (op : QueueOp α)
    (h : st.items.length ≤ st.maxSize) :
    (applyOp st op).1.items.length ≤ (applyOp st op).1.maxSize := by
  cases op with
  | put x =>
      unfold applyOp put putCompleted
      split_ifs with hlt
      · rw [(issueNotifications_fields _ _ _).1,
           (issueNotifications_fields _ _ _).2.2.2]
        simpa using hlt
      · exact h
  | get =>
      unfold applyOp get
      rcases hi : st.items with _ | ⟨a, rest⟩
      · exact h
      · rw [(issueNotifications_fields _ _ _).1,
           (issueNotifications_fields _ _ _).2.2.2]
        have hlen : st.items.length = rest.length + 1 := by rw [hi]; rfl
        dsimp only
        omega
  | getAll =>
      unfold applyOp getAll
      rw [(issueNotifications_fields _ _ _).1,
         (issueNotifications_fields _ _ _).2.2.2]
      simp
  | clear =>
      unfold applyOp clear
      rw [(issueNotifications_fields _ _ _).1,
         (issueNotifications_fields _ _ _).2.2.2]
      simp

/-- One mutating operation, seen on the watermark dimension, does one of
three things: nothing, a high-water event (latch false → true), or a
low-water event (latch true → false). -/
theorem applyOp_wm {α : Type} (st : QueueState α) (op : QueueOp α)
    (h : st.lowWaterMark ≤ st.highWaterMark) :
    (wmEvents (applyOp st op).2 = [] ∧
       (applyOp st op).1.highWaterCrossed = st.highWaterCrossed) ∨
    (st.highWaterCrossed = false ∧
       wmEvents (applyOp st op).2 = [QueueEventType.HIGH_WATER_MARK] ∧
       (applyOp st op).1.highWaterCrossed = true) ∨
    (st.highWaterCrossed = true ∧
       wmEvents (applyOp st op).2 = [QueueEventType.LOW_WATER_MARK] ∧
       (applyOp st op).1.highWaterCrossed = false) := by
  cases op with
  | put x =>
      unfold applyOp put putCompleted
      split_ifs
      · exact issue_wm_cases { st with items := st.items ++ [x] } _ _ h
      · exact Or.inl ⟨rfl, rfl⟩
  | get =>
      unfold applyOp get
      rcases hi : st.items with _ | ⟨a, rest⟩
      · exact Or.inl ⟨rfl, rfl⟩
      · exact issue_wm_cases { st with items := rest } _ _ h
  | getAll => exact issue_wm_cases { st with items := [] } _ _ h
  | clear => exact issue_wm_cases { st with items := [] } _ _ h

/-- The watermark notifications of a trace strictly alternate, the expected
next kind being determined by the current latch value (`false` expects a
high-water event first, `true` a low-water event first). -/
def wmAlternatesFrom : Bool → List QueueEventType → Prop
  | _, [] => True
  | b, e :: rest =>
      e = (if b then QueueEventType.LOW_WATER_MARK
           else QueueEventType.HIGH_WATER_MARK) ∧
      wmAlternatesFrom (!b) rest

/-- Over any trace of mutating operations, the watermark notifications
alternate starting from the kind expected by the initial latch. -/
theorem runOps_wm {α : Type} (ops : List (QueueOp α)) (st : QueueState α)
    (h : st.lowWaterMark ≤ st.highWaterMark) :
    wmAlternatesFrom st.highWaterCrossed (wmEvents (runOps st ops).2) := by
  induction ops generalizing st with
  | nil => simp [runOps, wmEvents, wmAlternatesFrom]
  | cons op rest ih =>
      have hb := applyOp_bounds st op
      have h2 : (applyOp st op).1.lowWaterMark ≤
          (applyOp st op).1.highWaterMark := by
        rw [hb.2.1, hb.2.2]; exact h
      have ihs := ih (applyOp st op).1 h2
      simp only [runOps, wmEvents_append]
      rcases applyOp_wm st op h with ⟨he, hl⟩ | ⟨hc, he, hl⟩ | ⟨hc, he, hl⟩
      · rw [he, List.nil_append, ← hl]; exact ihs
      · rw [he, hc, List.cons_append, List.nil_append]
        refine ⟨by simp, ?_⟩
        simp only [Bool.not_false]
        rw [← hl]; exact ihs
      · rw [he, hc, List.cons_append, List.nil_append]
        refine ⟨by simp, ?_⟩
        simp only [Bool.not_true]
        rw [← hl]; exact ihs

/-- When the high water mark equals the maximum size, one mutating operation
on a within-bounds queue can never issue a high-water notification: the rule
requires the new size to exceed the high water mark, and no operation takes
the size above `maxSize`. -/
theorem applyOp_no_high {α : Type} (st : QueueState α) (op : QueueOp α)
    (hhw : st.highWaterMark = st.maxSize)
    (hlw : st.lowWaterMark ≤ st.highWaterMark)
    (hsz : st.items.length ≤ st.maxSize) :
    QueueEventType.HIGH_WATER_MARK ∉ (applyOp st op).2 := by
  cases op with
  | put x =>
      unfold applyOp put putCompleted
      split_ifs with hlt
      · intro hmem
        have hmem2 := (high_mem_iff { st with items := st.items ++ [x] }
            ((st.items ++ [x]).length - 1) (st.items ++ [x]).length hlw).mp
            hmem
        have h2 := hmem2.2.1
        dsimp only at h2
        simp only [List.length_append, List.length_cons, List.length_nil]
          at h2
        omega
      · simp
  | get =>
      unfold applyOp get
      rcases hi : st.items with _ | ⟨a, rest⟩
      · simp
      · intro hmem
        have hmem2 := (high_mem_iff { st with items := rest }
            (rest.length + 1) rest.length hlw).mp hmem
        have h2 := hmem2.2.1
        dsimp only at h2
        have hlen : st.items.length = rest.length + 1 := by rw [hi]; rfl
        omega
  | getAll =>
      unfold applyOp getAll
      intro hmem
      have hmem2 := (high_mem_iff { st with items := ([] : List α) }
          st.items.length 0 hlw).mp hmem
      have h2 := hmem2.2.1
      dsimp only at h2
      omega
  | clear =>
      unfold applyOp clear
      intro hmem
      have hmem2 := (high_mem_iff { st with items := ([] : List α) }
          st.items.length 0 hlw).mp hmem
      have h2 := hmem2.2.1
      dsimp only at h2
      omega

/-- Over any trace of mutating operations on a within-bounds queue whose
high water mark equals its maximum size, no high-water notification is ever
issued. -/
theorem runOps_no_high {α : Type} (ops : List (QueueOp α)) (st : QueueState α)
    (hhw : st.highWaterMark = st.maxSize)
    (hlw : st.lowWaterMark ≤ st.highWaterMark)
    (hsz : st.items.length ≤ st.maxSize) :
    QueueEventType.HIGH_WATER_MARK ∉ (runOps st ops).2 := by
  induction ops generalizing st with
  | nil => simp [runOps]
  | cons op rest ih =>
      have hb := applyOp_bounds st op
      simp only [runOps, List.mem_append]
      intro hmem
      rcases hmem with h1 | h2
      · exact applyOp_no_high st op hhw hlw hsz h1
      · exact ih (applyOp st op).1 (by rw [hb.2.2, hb.1]; exact hhw)
          (by rw [hb.2.1, hb.2.2]; exact hlw) (applyOp_size st op hsz) h2

end Queue

/-! ## Lemmas about the Condition state -/

namespace Condition

/-- Invariant of a reachable `Condition` state: queued (armed) handles are
distinct and unsignaled, every semaphore holds at most one pending
notification (a signaled handle is out of the queue and receives no further
`up` until re-armed), every tracked fd was allocated, and unallocated fds
carry no count. -/
def CondInv (st : CondState) : Prop :=
  st.queue.Nodup ∧
  (∀ fd, fd ∈ st.queue → st.counts fd = 0) ∧
  (∀ fd, st.counts fd ≤ 1) ∧
  (∀ fd, fd ∈ st.queue → fd < st.nextFd) ∧
  (∀ fd, fd ∈ st.observers → fd < st.nextFd) ∧
  (∀ fd, st.nextFd ≤ fd → st.counts fd = 0)

theorem condInv_init : CondInv condInit := by
  refine ⟨List.nodup_nil, ?_, ?_, ?_, ?_, ?_⟩ <;> intro fd <;> simp [condInit]

/-- After popping the back and signaling it, the loop of `notifyAll` adds one
to the count of every (distinct) queued handle. -/
theorem notifyAllCounts_eq (l : List Int) (counts : Int → Nat)
    (hnd : l.Nodup) (x : Int) :
    notifyAllCounts l counts x = counts x + (if x ∈ l then 1 else 0) := by
  induction l generalizing counts with
  | nil => simp [notifyAllCounts]
  | cons b rest ih =>
      have hb : b ∉ rest := (List.nodup_cons.mp hnd).1
      have hr : rest.Nodup := (List.nodup_cons.mp hnd).2
      rw [notifyAllCounts, ih _ hr]
      by_cases hx : x = b
      · subst hx
        simp [hb]
      · simp [hx, List.mem_cons]

/-- Every completed operation preserves the invariant. -/
theorem condInv_applyCondOp (st : CondState) (op : CondOp)
    (h : CondInv st) : CondInv (applyCondOp st op) := by
  obtain ⟨hnd, hq0, hle, hqlt, holt, hfresh⟩ := h
  cases op with
  | observe =>
      refine ⟨?_, ?_, hle, ?_, ?_, ?_⟩
      · exact List.nodup_cons.mpr ⟨fun hm => absurd (hqlt _ hm) (by omega), hnd⟩
      · intro fd hm
        rcases List.mem_cons.mp hm with rfl | hm
        · exact hfresh _ (le_refl _)
        · exact hq0 _ hm
      · intro fd hm
        rcases List.mem_cons.mp hm with rfl | hm
        · simp [applyCondOp, observe]
        · have := hqlt _ hm
          simp only [applyCondOp, observe]
          omega
      · intro fd hm
        rcases List.mem_cons.mp hm with rfl | hm
        · simp [applyCondOp, observe]
        · have := holt _ hm
          simp only [applyCondOp, observe]
          omega
      · intro fd hge
        simp only [applyCondOp, observe] at hge
        exact hfresh _ (by omega)
  | waitTimedOut =>
      refine ⟨?_, ?_, hle, ?_, ?_, ?_⟩
      · exact List.nodup_cons.mpr ⟨fun hm => absurd (hqlt _ hm) (by omega), hnd⟩
      · intro fd hm
        rcases List.mem_cons.mp hm with rfl | hm
        · exact hfresh _ (le_refl _)
        · exact hq0 _ hm
      · intro fd hm
        rcases List.mem_cons.mp hm with rfl | hm
        · simp [applyCondOp, waitTimedOut]
        · have := hqlt _ hm
          simp only [applyCondOp, waitTimedOut]
          omega
      · intro fd hm
        have := holt _ hm
        simp only [applyCondOp, waitTimedOut]
        omega
      · intro fd hge
        simp only [applyCondOp, waitTimedOut] at hge
        exact hfresh _ (by omega)
  | notifyOne =>
      rcases hq : st.queue with _ | ⟨b, rest⟩
      · have heq : applyCondOp st CondOp.notifyOne = st := by
          simp [applyCondOp, notifyOne, hq]
        rw [heq]
        exact ⟨hnd, hq0, hle, hqlt, holt, hfresh⟩
      · have heq : applyCondOp st CondOp.notifyOne =
            { st with queue := rest,
                      counts := fun x =>
                        if x = b then st.counts b + 1 else st.counts x } := by
          simp [applyCondOp, notifyOne, hq]
        rw [heq]
        have hbq : b ∈ st.queue := by rw [hq]; exact List.mem_cons_self _ _
        have hnd2 := hq ▸ hnd
        have hb : b ∉ rest := (List.nodup_cons.mp hnd2).1
        refine ⟨(List.nodup_cons.mp hnd2).2, ?_, ?_, ?_, holt, ?_⟩
        · intro fd hm
          have hfd : fd ∈ st.queue := by
            rw [hq]; exact List.mem_cons_of_mem _ hm
          have hne : fd ≠ b := fun he => hb (he ▸ hm)
          dsimp only
          rw [if_neg hne]
          exact hq0 _ hfd
        · intro fd
          dsimp only
          by_cases hfd : fd = b
          · subst hfd
            simp [hq0 _ hbq]
          · simp [hfd, hle fd]
        · intro fd hm
          exact hqlt _ (by rw [hq]; exact List.mem_cons_of_mem _ hm)
        · intro fd hge
          dsimp only at hge ⊢
          have hne : fd ≠ b := fun he => absurd (hqlt _ hbq) (by omega)
          rw [if_neg hne]
          exact hfresh _ hge
  | notifyAll =>
      have heq : applyCondOp st CondOp.notifyAll =
          { st with queue := [],
                    counts := notifyAllCounts st.queue st.counts } := rfl
      rw [heq]
      refine ⟨List.nodup_nil, by simp, ?_, by simp, holt, ?_⟩
      · intro fd
        dsimp only
        rw [notifyAllCounts_eq _ _ hnd]
        by_cases hm : fd ∈ st.queue
        · simp [hm, hq0 _ hm]
        · simp [hm, hle fd]
      · intro fd hge
        dsimp only at hge ⊢
        rw [notifyAllCounts_eq _ _ hnd]
        have hm : fd ∉ st.queue := fun hmem => absurd (hqlt _ hmem) (by omega)
        simp [hm, hfresh _ hge]
  | ack fd =>
      by_cases hobs : fd ∈ st.observers
      · by_cases hz : st.counts fd = 0
        · have heq : applyCondOp st (CondOp.ack fd) = st := by
            simp [applyCondOp, ack, hobs, hz]
          rw [heq]
          exact ⟨hnd, hq0, hle, hqlt, holt, hfresh⟩
        · have heq : applyCondOp st (CondOp.ack fd) =
              { st with counts := fun x =>
                          if x = fd then st.counts fd - 1 else st.counts x,
                        queue := fd :: st.queue } := by
            simp [applyCondOp, ack, hobs, hz]
          rw [heq]
          have hfd1 : st.counts fd = 1 :=
            le_antisymm (hle fd) (by omega)
          have hfq : fd ∉ st.queue := fun hm => by
            have := hq0 _ hm
            omega
          refine ⟨List.nodup_cons.mpr ⟨hfq, hnd⟩, ?_, ?_, ?_, holt, ?_⟩
          · intro x hm
            dsimp only
            rcases List.mem_cons.mp hm with rfl | hm
            · simp [hfd1]
            · have hne : x ≠ fd := fun he => hfq (he ▸ hm)
              rw [if_neg hne]
              exact hq0 _ hm
          · intro x
            dsimp only
            by_cases hx : x = fd
            · subst hx; simp [hfd1]
            · simp [hx, hle x]
          · intro x hm
            dsimp only
            rcases List.mem_cons.mp hm with rfl | hm
            · exact holt _ hobs
            · exact hqlt _ hm
          · intro x hge
            dsimp only at hge ⊢
            have hne : x ≠ fd := fun he => absurd (holt _ hobs) (by omega)
            rw [if_neg hne]
            exact hfresh _ hge
      · have heq : applyCondOp st (CondOp.ack fd) = st := by
          simp [applyCondOp, ack, hobs]
        rw [heq]
        exact ⟨hnd, hq0, hle, hqlt, holt, hfresh⟩
  | stopObserving fd =>
      simp only [applyCondOp, stopObserving]
      split_ifs with hobs
      · exact ⟨hnd, hq0, hle, hqlt,
               fun x hm => holt _ (List.mem_of_mem_erase hm), hfresh⟩
      · exact ⟨hnd, hq0, hle, hqlt, holt, hfresh⟩

/-- Every state reachable from a fresh `Condition` by completed operations
satisfies the invariant. -/
theorem condInv_runCondOps (ops : List CondOp) : CondInv (runCondOps ops) := by
  suffices hgen : ∀ (l : List CondOp) (st : CondState), CondInv st →
      CondInv (l.foldl applyCondOp st) by
    exact hgen ops condInit condInv_init
  intro l
  induction l with
  | nil => intro st h; exact h
  | cons op rest ih =>
      intro st h
      exact ih _ (condInv_applyCondOp st op h)

end Condition

/-! ## Claim theorems: direct evaluations -/

/-- C1: the claim states that after every completed mutating operation the
`queueState_` toggle encodes the size (`WRITE_ONLY` iff the new size is 0),
in particular when a full queue is drained to empty in one step.  The code
violates this: on a `Queue(1,1,1)` holding one item (full), `getAll()` runs
the empty rule (toggle := WRITE_ONLY) and *then* the not-full rule (toggle :=
READ_WRITE), leaving the toggle `READ_WRITE` although the new size is 0.
This theorem evaluates the embedded code at that failing input: a completed
`put` followed by `getAll` ends with zero items and toggle `READ_WRITE`. -/
theorem C1_queueState_full_to_empty_eval :
    (Queue.mkQueue 1 1 1 : Option (QueueState Nat)) =
      some ⟨1, 1, 1, [], ToggleState.WRITE_ONLY, false⟩ ∧
    Queue.runOps (⟨1, 1, 1, [], ToggleState.WRITE_ONLY, false⟩ : QueueState Nat)
        [QueueOp.put 0, QueueOp.getAll] =
      (⟨1, 1, 1, [], ToggleState.READ_WRITE, false⟩,
       [QueueEventType.NOT_EMPTY, QueueEventType.FULL,
        QueueEventType.EMPTY, QueueEventType.NOT_FULL]) := by decide

/-- C2: the claim (and the spec's declared intent) is that both watermark
waits run their second sub-wait on the budget remaining after the first
sub-wait, so the whole call waits at most `t` ms.  The code does not: with
`timeout = 10` and a first sub-wait that consumed `elapsed = 7` ms, the
remaining budget is 3 ms, but `waitUntilHighWaterMark_` passes the full
original 10 ms to its second sub-wait (its computed `timeLeft` is unused)
and `waitUntilLowWaterMark_` passes `max(0, elapsed) = 7` ms (the elapsed
time rather than the remaining time).  Both exceed the 3 ms remainder. -/
theorem C2_watermark_wait_budget_eval :
    Queue.waitUntilHighWaterMark_secondTimeout 10 7 = 10 ∧
    ¬ Queue.waitUntilHighWaterMark_secondTimeout 10 7 ≤ 10 - 7 ∧
    Queue.waitUntilLowWaterMark_secondTimeout 10 7 = 7 ∧
    ¬ Queue.waitUntilLowWaterMark_secondTimeout 10 7 ≤ 10 - 7 := by decide

/-- C3: the claim states that after *both* kinds of move the destination's
toggle is set to match the transferred size.  The move constructor violates
this: its body only resets the source and never touches the destination's
freshly constructed toggle, which stays at its default `READ_WRITE`.
Evaluating the embedded move constructor on a fresh empty `Queue(2,1,1)`:
the destination holds 0 items yet its toggle is `READ_WRITE` (the claim
requires `WRITE_ONLY`); the moved-from source is as claimed. -/
theorem C3_moveConstruct_toggle_eval :
    (Queue.mkQueue 2 1 1 : Option (QueueState Nat)) =
      some ⟨2, 1, 1, [], ToggleState.WRITE_ONLY, false⟩ ∧
    Queue.moveConstruct
        (⟨2, 1, 1, [], ToggleState.WRITE_ONLY, false⟩ : QueueState Nat) =
      (⟨2, 1, 1, [], ToggleState.READ_WRITE, false⟩,
       ⟨2, 1, 1, [], ToggleState.WRITE_ONLY, false⟩) := by decide

/-- C4: watermark hysteresis.  Over any trace of mutating operations from a
freshly constructed queue the watermark notifications strictly alternate
(so between two consecutive high-water notifications there is a low-water
one and vice versa, the first being a high-water one), and a single
notification call fires HIGH_WATER_MARK exactly when the size goes from at
or below the high water mark to above it with `highWaterCrossed` false, and
LOW_WATER_MARK exactly when the size goes from above the low water mark to
at or below it with `highWaterCrossed` true. -/
theorem C4_watermark_hysteresis {α : Type} (maxS lwm hwm : Nat)
    (q0 : QueueState α) (ops : List (QueueOp α)) (st : QueueState α)
    (oldSize newSize : Nat) (h : Queue.mkQueue maxS lwm hwm = some q0)
    (hm : st.lowWaterMark ≤ st.highWaterMark) :
    Queue.wmAlternatesFrom false
      (Queue.wmEvents (Queue.runOps q0 ops).2) ∧
    (QueueEventType.HIGH_WATER_MARK ∈
        (Queue.issueNotifications_ st oldSize newSize).2 ↔
      oldSize ≤ st.highWaterMark ∧ st.highWaterMark < newSize ∧
      st.highWaterCrossed = false) ∧
    (QueueEventType.LOW_WATER_MARK ∈
        (Queue.issueNotifications_ st oldSize newSize).2 ↔
      st.lowWaterMark < oldSize ∧ newSize ≤ st.lowWaterMark ∧
      st.highWaterCrossed = true) := by
  refine ⟨?_, Queue.high_mem_iff st _ _ hm, Queue.low_mem_iff st _ _ hm⟩
  unfold Queue.mkQueue at h
  split_ifs at h with h1 h2
  have hq := Option.some.inj h
  subst hq
  exact Queue.runOps_wm ops
    (⟨maxS, lwm, hwm, [], ToggleState.WRITE_ONLY, false⟩ : QueueState α)
    (Nat.le_of_not_lt h2)

/-- Witness for C4: the spec's watermark scenario on Queue(10, 2, 4) —
five puts (HIGH on the fifth), a get, a put (no event, latch set), three
gets (LOW on reaching the low water mark), three puts (HIGH again) — and
the firing condition evaluated at the 4 → 5 transition. -/
theorem C4_watermark_hysteresis_witness :
    Queue.wmAlternatesFrom false
      (Queue.wmEvents
        (Queue.runOps
          (⟨10, 2, 4, [], ToggleState.WRITE_ONLY, false⟩ : QueueState Nat)
          [QueueOp.put 1, QueueOp.put 2, QueueOp.put 3, QueueOp.put 4,
           QueueOp.put 5, QueueOp.get, QueueOp.put 6, QueueOp.get,
           QueueOp.get, QueueOp.get, QueueOp.put 7, QueueOp.put 8,
           QueueOp.put 9]).2) ∧
    (QueueEventType.HIGH_WATER_MARK ∈
        (Queue.issueNotifications_
          (⟨10, 2, 4, [9, 9, 9, 9, 9], ToggleState.READ_WRITE, false⟩ :
            QueueState Nat) 4 5).2 ↔
      4 ≤ (⟨10, 2, 4, [9, 9, 9, 9, 9], ToggleState.READ_WRITE, false⟩ :
            QueueState Nat).highWaterMark ∧
      (⟨10, 2, 4, [9, 9, 9, 9, 9], ToggleState.READ_WRITE, false⟩ :
            QueueState Nat).highWaterMark < 5 ∧
      (⟨10, 2, 4, [9, 9, 9, 9, 9], ToggleState.READ_WRITE, false⟩ :
            QueueState Nat).highWaterCrossed = false) ∧
    (QueueEventType.LOW_WATER_MARK ∈
        (Queue.issueNotifications_
          (⟨10, 2, 4, [9, 9, 9, 9, 9], ToggleState.READ_WRITE, false⟩ :
            QueueState Nat) 4 5).2 ↔
      (⟨10, 2, 4, [9, 9, 9, 9, 9], ToggleState.READ_WRITE, false⟩ :
            QueueState Nat).lowWaterMark < 4 ∧
      5 ≤ (⟨10, 2, 4, [9, 9, 9, 9, 9], ToggleState.READ_WRITE, false⟩ :
            QueueState Nat).lowWaterMark ∧
      (⟨10, 2, 4, [9, 9, 9, 9, 9], ToggleState.READ_WRITE, false⟩ :
            QueueState Nat).highWaterCrossed = true) :=
  C4_watermark_hysteresis 10 2 4 _ _ _ 4 5 (by decide) (by decide)

/-- C8 counterexample: on a Queue with
`lowWaterMark = highWaterMark = maxSize = 1`, a completed `put` takes the
size from 0 (below `maxSize`) to 1 (at `maxSize`) — the transition on which
the claim says a HIGH_WATER_MARK event fires — yet no HIGH_WATER_MARK
notification is issued (the rule needs `newSize > highWaterMark = maxSize`,
which the size can never satisfy). -/
theorem C8_counterexample_eval :
    (Queue.mkQueue 1 1 1 : Option (QueueState Nat)) =
      some ⟨1, 1, 1, [], ToggleState.WRITE_ONLY, false⟩ ∧
    (⟨1, 1, 1, [], ToggleState.WRITE_ONLY, false⟩ :
        QueueState Nat).items.length = 0 ∧
    (Queue.put
        (⟨1, 1, 1, [], ToggleState.WRITE_ONLY, false⟩ : QueueState Nat)
        0).1.items.length = 1 ∧
    QueueEventType.HIGH_WATER_MARK ∉
      (Queue.put
        (⟨1, 1, 1, [], ToggleState.WRITE_ONLY, false⟩ : QueueState Nat)
        0).2 := by decide

/-- C8 (amended): for a queue constructed with
`lowWaterMark = highWaterMark = maxSize`, no mutating operation ever fires
HIGH_WATER_MARK — the event requires the size to exceed the high water
mark, and the size never exceeds `maxSize`.  (A fortiori it fires on no
transition other than from below `maxSize` to at `maxSize`.) -/
theorem C8_no_high_when_hwm_eq_max {α : Type} (m : Nat) (q0 : QueueState α)
    (ops : List (QueueOp α)) (h : Queue.mkQueue m m m = some q0) :
    QueueEventType.HIGH_WATER_MARK ∉ (Queue.runOps q0 ops).2 := by
  unfold Queue.mkQueue at h
  split_ifs at h with h1
  have hq := Option.some.inj h
  subst hq
  exact Queue.runOps_no_high ops _ rfl (Nat.le_refl _) (by simp)

/-- Witness for C8's amended claim on Queue(1, 1, 1) with a single put. -/
theorem C8_no_high_when_hwm_eq_max_witness :
    QueueEventType.HIGH_WATER_MARK ∉
      (Queue.runOps
        (⟨1, 1, 1, [], ToggleState.WRITE_ONLY, false⟩ : QueueState Nat)
        [QueueOp.put 0]).2 :=
  C8_no_high_when_hwm_eq_max 1 _ _ (by decide)

/-- C5: the claim states that `numTargets()` always equals the number of
registered fds, and in particular is zero after `clear()`.  The code's
`clear()` discards and recreates the kernel epoll set but never resets
`numFds_`: after `add(5)` (count 1) followed by `clear()`, no fd is
registered yet `numTargets()` still reports 1. -/
theorem C5_clear_numTargets_eval :
    EpollSet.add EpollSet.create 5 = EpollCtlResult.ok ⟨[5], 1⟩ ∧
    EpollSet.clear ⟨[5], 1⟩ = ⟨[], 1⟩ ∧
    EpollSet.numTargets (EpollSet.clear ⟨[5], 1⟩) = 1 ∧
    (EpollSet.clear ⟨[5], 1⟩).registered.length = 0 := by decide

/-- C7: the claim states `createEventFd` returns the new fd on every
successful path.  The code's success path has no `return` statement: when
`::eventfd` succeeds (here with fd 5) control falls off the end of the
function and no value is returned; only the failure path (negative result)
behaves as specified, throwing a system error. -/
theorem C7_createEventFd_missing_return_eval :
    ReadWriteToggle.createEventFd 5 =
      ReadWriteToggle.CreateEventFdResult.fallsOffEnd ∧
    ReadWriteToggle.createEventFd 5 ≠
      ReadWriteToggle.CreateEventFdResult.returns 5 ∧
    ReadWriteToggle.createEventFd (-1) =
      ReadWriteToggle.CreateEventFdResult.throwsSystemError := by decide

/-- C6: `Condition::ack(fd)` on a reachable Condition state.  For an fd not
in the observer table (never returned by `observe`, or already passed to
`stopObserving`), `ack` fails with the no-such-item error and leaves the
state unchanged (`lookup_` throws before any mutation).  For an fd whose
observer handle is currently signaled (semaphore value positive — on a
reachable state that value is exactly 1), `ack` consumes the signal, leaving
the handle's semaphore at 0 (fd no longer readable), and re-arms the handle
by pushing it on the back of the notification queue; the observer table is
untouched. -/
theorem C6_ack_behavior (ops : List CondOp) (fd : Int) :
    (fd ∉ (runCondOps ops).observers →
       Condition.ack (runCondOps ops) fd =
         (Condition.AckOutcome.noSuchItem, runCondOps ops)) ∧
    (fd ∈ (runCondOps ops).observers →
     0 < (runCondOps ops).counts fd →
       (Condition.ack (runCondOps ops) fd).1 = Condition.AckOutcome.ok ∧
       (Condition.ack (runCondOps ops) fd).2.counts fd = 0 ∧
       (Condition.ack (runCondOps ops) fd).2.queue =
         fd :: (runCondOps ops).queue ∧
       (Condition.ack (runCondOps ops) fd).2.observers =
         (runCondOps ops).observers) := by
  constructor
  · intro hno
    simp [Condition.ack, hno]
  · intro hobs hpos
    have hinv := Condition.condInv_runCondOps ops
    have h1 : (runCondOps ops).counts fd = 1 :=
      le_antisymm (hinv.2.2.1 fd) hpos
    have hz : ¬ (runCondOps ops).counts fd = 0 := by omega
    simp [Condition.ack, hobs, hz, h1]

/-- Witness for C6: after `observe` (fd 0) and `notifyAll`, fd 5 is unknown
(no-such-item, state unchanged) while fd 0 is signaled and `ack 0` consumes
the signal and re-arms the handle. -/
theorem C6_ack_behavior_witness :
    Condition.ack (runCondOps [CondOp.observe, CondOp.notifyAll]) 5 =
      (Condition.AckOutcome.noSuchItem,
       runCondOps [CondOp.observe, CondOp.notifyAll]) ∧
    ((Condition.ack (runCondOps [CondOp.observe, CondOp.notifyAll]) 0).1 =
       Condition.AckOutcome.ok ∧
     (Condition.ack (runCondOps [CondOp.observe, CondOp.notifyAll])
        0).2.counts 0 = 0 ∧
     (Condition.ack (runCondOps [CondOp.observe, CondOp.notifyAll])
        0).2.queue =
       0 :: (runCondOps [CondOp.observe, CondOp.notifyAll]).queue ∧
     (Condition.ack (runCondOps [CondOp.observe, CondOp.notifyAll])
        0).2.observers =
       (runCondOps [CondOp.observe, CondOp.notifyAll]).observers) :=
  ⟨(C6_ack_behavior [CondOp.observe, CondOp.notifyAll] 5).1 (by decide),
   (C6_ack_behavior [CondOp.observe, CondOp.notifyAll] 0).2 (by decide)
     (by decide)⟩

/-- C10: a timed `Condition::wait(timeout)` that returns false (timed out)
leaves the waiter's freshly created handle on the back of the notification
queue — nothing removes it.  A subsequent `notifyOne` pops exactly that
stale handle and signals its semaphore (whose owner has already returned),
consuming the notification: the queue returns to its previous contents and
no observer's fd becomes readable (every observer's semaphore value is
unchanged). -/
theorem C10_timedout_wait_stale_handle (ops : List CondOp) (st : CondState)
    (fd : Int) (h : st = runCondOps ops)
    (hfd : fd ∈ (Condition.waitTimedOut st).observers) :
    (Condition.waitTimedOut st).queue = st.nextFd :: st.queue ∧
    st.nextFd ∉ (Condition.waitTimedOut st).observers ∧
    (Condition.notifyOne (Condition.waitTimedOut st)).queue = st.queue ∧
    (Condition.notifyOne (Condition.waitTimedOut st)).counts st.nextFd = 1 ∧
    (Condition.notifyOne (Condition.waitTimedOut st)).counts fd =
      st.counts fd := by
  subst h
  have hinv := Condition.condInv_runCondOps ops
  have hobs : fd ∈ (runCondOps ops).observers := hfd
  have hlt : fd < (runCondOps ops).nextFd := hinv.2.2.2.2.1 fd hobs
  have hfresh : (runCondOps ops).counts (runCondOps ops).nextFd = 0 :=
    hinv.2.2.2.2.2 _ (le_refl _)
  refine ⟨rfl, ?_, rfl, ?_, ?_⟩
  · intro hmem
    exact absurd (hinv.2.2.2.2.1 _ hmem) (by omega)
  · simp [Condition.notifyOne, Condition.waitTimedOut, hfresh]
  · have hne : fd ≠ (runCondOps ops).nextFd := by omega
    simp [Condition.notifyOne, Condition.waitTimedOut, hne]

/-- Witness for C10: after a single `observe` (observer fd 0), a timed-out
wait leaves stale handle 1 queued; `notifyOne` then pops handle 1, ups its
count to 1, restores the queue, and leaves observer 0's count at 0. -/
theorem C10_timedout_wait_stale_handle_witness :
    (0 : Int) ∈
      (Condition.waitTimedOut (runCondOps [CondOp.observe])).observers ∧
    ((Condition.waitTimedOut (runCondOps [CondOp.observe])).queue =
       (runCondOps [CondOp.observe]).nextFd ::
         (runCondOps [CondOp.observe]).queue ∧
     (runCondOps [CondOp.observe]).nextFd ∉
       (Condition.waitTimedOut (runCondOps [CondOp.observe])).observers ∧
     (Condition.notifyOne
        (Condition.waitTimedOut (runCondOps [CondOp.observe]))).queue =
       (runCondOps [CondOp.observe]).queue ∧
     (Condition.notifyOne
        (Condition.waitTimedOut (runCondOps [CondOp.observe]))).counts
         (runCondOps [CondOp.observe]).nextFd = 1 ∧
     (Condition.notifyOne
        (Condition.waitTimedOut (runCondOps [CondOp.observe]))).counts 0 =
       (runCondOps [CondOp.observe]).counts 0) :=
  ⟨by decide,
   C10_timedout_wait_stale_handle [CondOp.observe] (runCondOps [CondOp.observe])
     0 rfl (by decide)⟩

/-- C9: moving an active `Queue::Guard` yields a destination that still
reports `active() = true` (it copied the non-null owner pointer) but whose
`fd()` is `-1`, because the move-constructor body assigns `-1` to its own
`fd_` instead of `other.fd_`; the moved-from guard becomes inactive.
`Condition::Guard`'s move constructor, by contrast, preserves the fd in the
destination. -/
theorem C9_guard_moveConstruct (g : GuardState) (h : g.active = true) :
    (Queue.Guard.moveConstruct g).1.active = true ∧
    (Queue.Guard.moveConstruct g).1.fd = -1 ∧
    (Queue.Guard.moveConstruct g).2.active = false ∧
    (Condition.Guard.moveConstruct g).1.active = true ∧
    (Condition.Guard.moveConstruct g).1.fd = g.fd ∧
    (Condition.Guard.moveConstruct g).2.active = false := by
  simp [Queue.Guard.moveConstruct, Condition.Guard.moveConstruct, h]

/-- Witness for C9 at the concrete active guard `⟨true, 7⟩`. -/
theorem C9_guard_moveConstruct_witness :
    (⟨true, 7⟩ : GuardState).active = true ∧
    ((Queue.Guard.moveConstruct ⟨true, 7⟩).1.active = true ∧
     (Queue.Guard.moveConstruct ⟨true, 7⟩).1.fd = -1 ∧
     (Queue.Guard.moveConstruct ⟨true, 7⟩).2.active = false ∧
     (Condition.Guard.moveConstruct ⟨true, 7⟩).1.active = true ∧
     (Condition.Guard.moveConstruct ⟨true, 7⟩).1.fd =
       (⟨true, 7⟩ : GuardState).fd ∧
     (Condition.Guard.moveConstruct ⟨true, 7⟩).2.active = false) :=
  ⟨rfl, C9_guard_moveConstruct ⟨true, 7⟩ rfl⟩

end Pistis
